import Mathlib

set_option maxRecDepth 10000

namespace Jupyfmt

/-- Model of Python strings as lists of characters. -/
abbrev Str := List Char

instance {ε α : Type} [DecidableEq ε] [DecidableEq α] : DecidableEq (Except ε α) :=
  fun a b =>
    match a, b with
    | .error x, .error y =>
      if h : x = y then .isTrue (by rw [h])
      else .isFalse (fun hc => h (Except.error.inj hc))
    | .error _, .ok _ => .isFalse (fun hc => Except.noConfusion hc)
    | .ok _, .error _ => .isFalse (fun hc => Except.noConfusion hc)
    | .ok x, .ok y =>
      if h : x = y then .isTrue (by rw [h])
      else .isFalse (fun hc => h (Except.ok.inj hc))

/-- Replace a leading literal occurrence of `pat` in one line by `repl`:
the effect of one anchored `^pat` regex match on that line. -/
def replaceLead (pat repl l : Str) : Str :=
  if pat <+: l then repl ++ l.drop pat.length else l

/-- Model of Python `re.sub('^' + pat, repl, s, flags=re.M)` for a literal,
newline-free pattern: the replacement applies at the start of every line,
where lines are the segments between newline characters.  Used by the
directive shield in src/jupyfmt/main.py lines 83-84 and 99-100, and in
src/jupyfmt/formatters.py lines 104-105 and 109-110. -/
def reSubStart (pat repl s : Str) : Str :=
  [Char.ofNat 10].intercalate ((s.splitOn (Char.ofNat 10)).map (replaceLead pat repl))

/-- The sentinel token written for shielded line magics. -/
def magicSentinel : Str :=
  ['#', '%', '#', 'j', 'u', 'p', 'y', 'l', 'i', 'n', 't', '#']

/-- The sentinel token written for shielded shell escapes. -/
def bangSentinel : Str :=
  ['#', '!', '#', 'j', 'u', 'p', 'y', 'l', 'i', 'n', 't', '#']

/-- Directive shield, "in" direction: rewrite every line-leading percent
marker, then every line-leading bang marker, to its sentinel
(main.py lines 83-84; formatters.py lines 104-105). -/
def shield (s : Str) : Str :=
  reSubStart ['!'] bangSentinel (reSubStart ['%'] magicSentinel s)

/-- Directive shield, "out" direction: rewrite every line-leading sentinel
back to its marker character (main.py lines 99-100; formatters.py
lines 109-110). -/
def unshield (s : Str) : Str :=
  reSubStart bangSentinel ['!'] (reSubStart magicSentinel ['%'] s)

/-- Python `str.splitlines()` restricted to newline terminators: the list of
lines without their terminators, with no phantom empty line after a final
terminator. -/
def splitlines (s : Str) : List Str :=
  if s = [] then []
  else if s.getLast? = some (Char.ofNat 10) then (s.splitOn (Char.ofNat 10)).dropLast
  else s.splitOn (Char.ofNat 10)

/-- The characters Python `str.split()` treats as whitespace. -/
def pyIsSpace (c : Char) : Bool :=
  c = ' ' || c = '\t' || c = Char.ofNat 10 || c = '\r' || c = Char.ofNat 11 || c = Char.ofNat 12

/-- Python `str.split()` with no separator argument: split on whitespace
runs, discarding empty tokens. -/
def pyWords (l : Str) : List Str :=
  (l.splitOnP pyIsSpace).filter (fun w => !w.isEmpty)

/-- The skip list of cell-magic tags, identical in src/jupyfmt/main.py
lines 18-32 and src/jupyfmt/formatters.py lines 10-24. -/
def SKIPPABLE_MAGIC_CODES : List Str :=
  ["bash".toList, "html".toList, "javascript".toList, "js".toList,
   "latex".toList, "markdown".toList, "perl".toList, "ruby".toList,
   "sh".toList, "svg".toList, "writefile".toList]

/-- The formatter functions a cell can be routed to: `format_python` or
`format_r` of src/jupyfmt/formatters.py.  The registry of secondary
formatters maps the single key `R` to `format_r` (formatters.py line 60). -/
inductive FmtFun where
  | pythonF
  | rF
deriving DecidableEq

/-- The uncaught Python exceptions `get_formatter` can raise. -/
inductive PyExc where
  | stopIteration
  | indexError
deriving DecidableEq

/-- The skip set used by `get_formatter` (formatters.py lines 73-76): with
`exclude_nonkernel_languages` the registered secondary-language keys are
also skipped. -/
def skip_codes (exclude_nonkernel_languages : Bool) : List Str :=
  if exclude_nonkernel_languages then SKIPPABLE_MAGIC_CODES ++ [['R']]
  else SKIPPABLE_MAGIC_CODES

/-- src/jupyfmt/formatters.py `get_formatter` (lines 63-85).  Empty source
yields no formatter; a missing non-empty line raises `StopIteration` from
`next(...)` (line 70); skip-tagged first non-blank lines yield no formatter
(lines 78-79); an all-whitespace first non-blank line raises `IndexError`
from `split()[0]` (line 82); otherwise the first token with its first two
characters dropped is looked up in the secondary-formatter registry, with
`format_python` the default (line 85). -/
def get_formatter (source : Str) (exclude_nonkernel_languages : Bool) :
    Except PyExc (Option FmtFun) :=
  if source.length = 0 then .ok none
  else
    match (splitlines source).filter (fun l => !l.isEmpty) with
    | [] => .error .stopIteration
    | first :: _ =>
      if (skip_codes exclude_nonkernel_languages).any
          (fun magic => (('%' :: '%' :: magic : Str)).isPrefixOf first) then
        .ok none
      else
        match pyWords first with
        | [] => .error .indexError
        | tok :: _ =>
          .ok (some (if tok.drop 2 = ['R'] then FmtFun.rF else FmtFun.pythonF))

/-- Append one newline to a non-empty source (main.py lines 78-79;
formatters.py lines 99-100). -/
def padNL (s : Str) : Str :=
  if s.length > 0 then s ++ [Char.ofNat 10] else s

/-- Strip one trailing newline if present (main.py lines 119-121;
formatters.py lines 113-114). -/
def stripTrailNL (s : Str) : Str :=
  if s.getLast? = some (Char.ofNat 10) then s.dropLast else s

/-- Dispatch a routed formatter to the supplied external formatter
functions, which model black and styler as black boxes. -/
def applyFmt (fmtPy fmtR : Str → Str) : FmtFun → Str → Str
  | .pythonF => fmtPy
  | .rF => fmtR

/-- The shield-format-unshield core of `format_code` (formatters.py
lines 99-110): pad, shield, invoke the routed formatter, unshield. -/
def pipelineOut (fmtPy fmtR : Str → Str) (f : FmtFun) (s : Str) : Str :=
  unshield (applyFmt fmtPy fmtR f (shield (padNL s)))

/-- src/jupyfmt/formatters.py `format_code` (lines 88-116): route via
`get_formatter` (propagating its exceptions), return the no-change sentinel
when no formatter applies, otherwise pad, shield, format, unshield and strip
the one trailing newline back off. -/
def format_code (fmtPy fmtR : Str → Str) (source : Str)
    (exclude_nonkernel_languages : Bool) : Except PyExc (Option Str) :=
  match get_formatter source exclude_nonkernel_languages with
  | .error e => .error e
  | .ok none => .ok none
  | .ok (some f) => .ok (some (stripTrailNL (pipelineOut fmtPy fmtR f source)))

/-- A notebook cell: type tag, source text, optional execution count, and
opaque payloads for the cell metadata and outputs the schema also carries. -/
structure Cell where
  cell_type : String
  source : Str
  execution_count : Option Int
  cellMetadata : String
  outputs : List String
deriving DecidableEq

/-- `nbformat.v4.new_code_cell(src)` (main.py line 122): a fresh code cell
holding only the given source, with default (empty) metadata, no outputs
and no execution count. -/
def new_code_cell (src : Str) : Cell :=
  { cell_type := "code", source := src, execution_count := none,
    cellMetadata := "\x7b\x7d", outputs := [] }

/-- Default cell used with `List.getD`. -/
def dummyCell : Cell := new_code_cell []

/-- The flags `format_file` receives (main.py lines 35-42). -/
structure FmtArgs where
  check : Bool
  diff : Bool
  compact_diff : Bool
  assert_consistent_execution : Bool
deriving DecidableEq

/-- The exceptions `format_file` can raise in apply mode (main.py
lines 64-66 and 94-96). -/
inductive FileError where
  | inconsistentExecution (i : Nat)
  | invalidInput (i : Nat)
deriving DecidableEq

/-- The mutable state of the cell loop in `format_file` (main.py
lines 46-50). -/
structure LoopSt where
  cur : Int
  errored : Nat
  changed : Nat
  unchanged : Nat
deriving DecidableEq

/-- The skip test of main.py line 73: the raw cell source literally starts
with a listed cell-magic tag. -/
def startsWithSkipTag (s : Str) : Bool :=
  SKIPPABLE_MAGIC_CODES.any (fun magic => (('%' :: '%' :: magic : Str)).isPrefixOf s)

/-- One iteration of the cell loop of `format_file` (main.py lines 51-127),
with black modelled as `fmt : Str → Option Str` where `none` stands for
`black.InvalidInput`.  Returns the (possibly replaced) cell and the updated
loop state, or the exception that aborts the file. -/
def stepCell (fmt : Str → Option Str) (a : FmtArgs) (i : Nat) (cell : Cell)
    (st : LoopSt) : Except FileError (Cell × LoopSt) :=
  if cell.cell_type ≠ "code" then .ok (cell, st)
  else if a.assert_consistent_execution = true ∧ cell.execution_count ≠ some st.cur then
    if a.check then .ok (cell, { st with errored := st.errored + 1 })
    else .error (.inconsistentExecution i)
  else
    let st1 : LoopSt := { st with cur := st.cur + 1 }
    if startsWithSkipTag cell.source then .ok (cell, st1)
    else
      let shielded := shield (padNL cell.source)
      match fmt shielded with
      | none =>
        if a.check then .ok (cell, { st1 with errored := st1.errored + 1 })
        else .error (.invalidInput i)
      | some fmted =>
        if shielded ≠ fmted then
          .ok (new_code_cell (stripTrailNL (unshield fmted)),
               { st1 with changed := st1.changed + 1 })
        else .ok (cell, { st1 with unchanged := st1.unchanged + 1 })

/-- The cell loop of `format_file` over the remaining cells, threading the
index and the loop state. -/
def runCells (fmt : Str → Option Str) (a : FmtArgs) :
    Nat → List Cell → LoopSt → Except FileError (List Cell × LoopSt)
  | _, [], st => .ok ([], st)
  | i, c :: cs, st =>
    match stepCell fmt a i c st with
    | .error e => .error e
    | .ok (c2, st2) =>
      match runCells fmt a (i + 1) cs st2 with
      | .error e => .error e
      | .ok (cs2, st3) => .ok (c2 :: cs2, st3)

/-- The observable outcome of `format_file` on one notebook: the final cell
list, whether the file was rewritten in place (main.py lines 129-131), and
the returned counter triple (main.py line 145). -/
structure FileResult where
  cells : List Cell
  written : Bool
  cells_errored : Nat
  cells_changed : Nat
  cells_unchanged : Nat
deriving DecidableEq

/-- src/jupyfmt/main.py `format_file` (lines 35-145), file I/O abstracted
away: run the cell loop from counter 1, then rewrite the notebook exactly
when no cell errored and neither check mode nor a diff mode is active. -/
def format_file (fmt : Str → Option Str) (a : FmtArgs) (cells : List Cell) :
    Except FileError FileResult :=
  match runCells fmt a 0 cells { cur := 1, errored := 0, changed := 0, unchanged := 0 } with
  | .error e => .error e
  | .ok (cells2, st) =>
    .ok { cells := cells2,
          written := (st.errored == 0) && !a.check && !a.compact_diff && !a.diff,
          cells_errored := st.errored,
          cells_changed := st.changed,
          cells_unchanged := st.unchanged }

/-- The per-file aggregation loop of `main` (main.py lines 270-296): each
file result is either an exception (caught and counted only in check mode)
or a counter triple classified errored / changed / unchanged in that
priority order. -/
def aggregate (check : Bool) :
    List (Except FileError (Nat × Nat × Nat)) → Nat × Nat × Nat →
    Except FileError (Nat × Nat × Nat)
  | [], acc => .ok acc
  | r :: rs, (fe, fc, fu) =>
    match r with
    | .error e => if check then aggregate check rs (fe + 1, fc, fu) else .error e
    | .ok (ce, cc, _) =>
      if ce > 0 then aggregate check rs (fe + 1, fc, fu)
      else if cc > 0 then aggregate check rs (fe, fc + 1, fu)
      else aggregate check rs (fe, fc, fu + 1)

/-- The exit-code computation of `main` (main.py lines 307-316): outside
check mode the exit code stays 0. -/
def exit_code (check : Bool) (files_errored files_changed : Nat) : Nat :=
  if check then
    if files_errored > 0 then 2
    else if files_changed > 0 then 1
    else 0
  else 0

/-- One whole run of `main` over the per-file outcomes: aggregate the file
counters, then attach the exit code.  An uncaught per-file exception outside
check mode propagates (main.py lines 283-289). -/
def mainRun (check : Bool) (rs : List (Except FileError (Nat × Nat × Nat))) :
    Except FileError (Nat × Nat × Nat × Nat) :=
  match aggregate check rs (0, 0, 0) with
  | .error e => .error e
  | .ok (fe, fc, fu) => .ok (fe, fc, fu, exit_code check fe fc)

/-- Spec-side reading of main.py lines 283-292: a file counts as errored
when its processing raised or at least one cell errored. -/
def isErroredFile (r : Except FileError (Nat × Nat × Nat)) : Bool :=
  match r with
  | .error _ => true
  | .ok (ce, _, _) => decide (0 < ce)

/-- Spec-side reading of main.py lines 293-294: a file counts as changed
when no cell errored and at least one cell changed. -/
def isChangedFile (r : Except FileError (Nat × Nat × Nat)) : Bool :=
  match r with
  | .error _ => false
  | .ok (ce, cc, _) => decide (ce = 0) && decide (0 < cc)

/-- Spec-side reading of main.py lines 295-296: a file counts as unchanged
when no cell errored and no cell changed. -/
def isUnchangedFile (r : Except FileError (Nat × Nat × Nat)) : Bool :=
  match r with
  | .error _ => false
  | .ok (ce, cc, _) => decide (ce = 0) && decide (cc = 0)

/-- Concrete check-mode flags. -/
def checkArgs : FmtArgs := ⟨true, false, false, false⟩

/-- Concrete check-mode flags with the execution-consistency assertion. -/
def checkAssertArgs : FmtArgs := ⟨true, false, false, true⟩

/-- Concrete apply-mode flags (no options). -/
def applyArgs : FmtArgs := ⟨false, false, false, false⟩

/-- The initial loop state of `format_file` (main.py lines 46-50). -/
def initSt : LoopSt := ⟨1, 0, 0, 0⟩

/-- A formatter that returns its input unchanged. -/
def idFmt : Str → Option Str := fun s => some s

/-- A formatter that always returns the normalized text of the rich cell. -/
def oneFmt : Str → Option Str := fun _ => some ("1 + 1\n".toList)

/-- An already formatted code cell. -/
def pyCell : Cell := ⟨"code", "1 + 1".toList, some 1, "nbmeta", []⟩

/-- A code cell starting with a listed skip tag. -/
def mdTagCell : Cell := ⟨"code", "%%markdown\nfoo".toList, some 1, "nbmeta", []⟩

/-- A code cell whose first non-blank line carries a skip tag after a blank
first line. -/
def blankMdCell : Cell := ⟨"code", "\n%%markdown".toList, some 1, "nbmeta", []⟩

/-- A code cell whose recorded execution count is 2. -/
def execCell : Cell := ⟨"code", "1".toList, some 2, "nbmeta", []⟩

/-- A code cell carrying metadata, outputs and an execution count. -/
def richCell : Cell := ⟨"code", "1+1".toList, some 1, "customMeta", ["stream output"]⟩

/-- A non-code cell. -/
def otherCell : Cell := ⟨"markdown", "# title".toList, none, "nbmeta", []⟩

/-- Per-file outcomes of a three-file run: one file with an errored cell,
one with a changed cell, one raising a file-level exception. -/
def c1rs : List (Except FileError (Nat × Nat × Nat)) :=
  [Except.ok (1, 0, 0), Except.ok (0, 1, 0), Except.error (.invalidInput 0)]

/-- Result of an apply-mode run over the already formatted cell. -/
def c2applyRes : FileResult := ⟨[pyCell], true, 0, 0, 1⟩

/-- Result of an apply-mode run over a non-code cell and an already
formatted code cell. -/
def c5res : FileResult := ⟨[otherCell, pyCell], true, 0, 0, 1⟩

/-- Result of an apply-mode run that reformats the rich cell. -/
def c9res : FileResult := ⟨[new_code_cell ("1 + 1".toList)], true, 0, 1, 0⟩

/-! Helper lemmas about line splitting and the directive shield. -/

lemma splitOnP_sep_false {α : Type} (p : α → Bool) :
    ∀ (xs : List α), ∀ l ∈ xs.splitOnP p, ∀ a ∈ l, p a = false := by
  intro xs
  induction xs with
  | nil =>
    intro l hl a ha
    simp only [List.splitOnP_nil, List.mem_singleton] at hl
    subst hl
    simp at ha
  | cons x xs ih =>
    intro l hl a ha
    rw [List.splitOnP_cons] at hl
    by_cases hp : p x = true
    · rw [if_pos hp] at hl
      rcases List.mem_cons.mp hl with h | h
      · subst h; simp at ha
      · exact ih l h a ha
    · rw [if_neg hp] at hl
      have hpf : p x = false := by simpa using hp
      rcases hsplit : xs.splitOnP p with _ | ⟨hd, tl⟩
      · exact absurd hsplit (List.splitOnP_ne_nil p xs)
      · rw [hsplit, List.modifyHead_cons] at hl
        rcases List.mem_cons.mp hl with h | h
        · subst h
          rcases List.mem_cons.mp ha with h2 | h2
          · subst h2; exact hpf
          · exact ih hd (by rw [hsplit]; exact List.mem_cons_self hd tl) a h2
        · exact ih l (by rw [hsplit]; exact List.mem_cons_of_mem hd h) a ha

lemma sep_not_mem_splitOn {α : Type} [DecidableEq α] (c : α) (s : List α) :
    ∀ l ∈ s.splitOn c, c ∉ l := by
  intro l hl hmem
  have hl2 : l ∈ s.splitOnP (fun a => a == c) := hl
  have h := splitOnP_sep_false (fun a => a == c) s l hl2 c hmem
  simp at h

lemma infix_of_leading {α : Type} {l₁ l₂ : List α} (h : l₁ <+: l₂) : l₁ <:+: l₂ := by
  obtain ⟨t, rfl⟩ := h
  exact ⟨[], t, by simp⟩

lemma infix_of_trailing {α : Type} {l₁ l₂ : List α} (h : l₁ <:+ l₂) : l₁ <:+: l₂ := by
  obtain ⟨s, rfl⟩ := h
  exact ⟨s, [], by simp⟩

lemma infix_intercalate {α : Type} (sep : List α) :
    ∀ (ls : List (List α)) (l : List α), l ∈ ls → l <:+: sep.intercalate ls := by
  intro ls
  induction ls with
  | nil => intro l hl; simp at hl
  | cons a t ih =>
    intro l hl
    rcases List.mem_cons.mp hl with h | h
    · subst h
      cases t with
      | nil =>
        have e : sep.intercalate [l] = l := by simp [List.intercalate]
        rw [e]
      | cons b t2 =>
        have e : sep.intercalate (l :: b :: t2) = l ++ (sep ++ sep.intercalate (b :: t2)) := by
          simp [List.intercalate, List.intersperse_cons_cons, List.append_assoc]
        rw [e]
        exact infix_of_leading (List.prefix_append l _)
    · cases t with
      | nil => simp at h
      | cons b t2 =>
        have e : sep.intercalate (a :: b :: t2) = (a ++ sep) ++ sep.intercalate (b :: t2) := by
          simp [List.intercalate, List.intersperse_cons_cons, List.append_assoc]
        rw [e]
        exact (ih l h).trans (infix_of_trailing (List.suffix_append (a ++ sep) _))

lemma infix_of_mem_splitOn {α : Type} [DecidableEq α] {c : α} {s l : List α}
    (hl : l ∈ s.splitOn c) : l <:+: s := by
  have h2 := infix_intercalate [c] (s.splitOn c) l hl
  rwa [List.intercalate_splitOn] at h2

lemma replaceLead_nl_free {pat repl l : Str} (hr : Char.ofNat 10 ∉ repl)
    (hl : Char.ofNat 10 ∉ l) : Char.ofNat 10 ∉ replaceLead pat repl l := by
  unfold replaceLead
  split
  · intro hmem
    rcases List.mem_append.mp hmem with h | h
    · exact hr h
    · exact hl (List.drop_subset _ _ h)
  · exact hl

lemma splitOn_reSubStart (pat repl s : Str) (hr : Char.ofNat 10 ∉ repl) :
    (reSubStart pat repl s).splitOn (Char.ofNat 10) =
      (s.splitOn (Char.ofNat 10)).map (replaceLead pat repl) := by
  unfold reSubStart
  apply List.splitOn_intercalate
  · intro l hl
    rcases List.mem_map.mp hl with ⟨l0, hl0, rfl⟩
    exact replaceLead_nl_free hr (sep_not_mem_splitOn _ s l0 hl0)
  · have h := List.splitOnP_ne_nil (fun a => a == Char.ofNat 10) s
    intro hnil
    rw [List.map_eq_nil_iff] at hnil
    exact h hnil

lemma reSubStart_comp (p₁ r₁ p₂ r₂ s : Str) (h₁ : Char.ofNat 10 ∉ r₁) :
    reSubStart p₂ r₂ (reSubStart p₁ r₁ s) =
      [Char.ofNat 10].intercalate ((s.splitOn (Char.ofNat 10)).map
        (fun l => replaceLead p₂ r₂ (replaceLead p₁ r₁ l))) := by
  show [Char.ofNat 10].intercalate
      (((reSubStart p₁ r₁ s).splitOn (Char.ofNat 10)).map (replaceLead p₂ r₂)) = _
  rw [splitOn_reSubStart p₁ r₁ s h₁, List.map_map]
  rfl

lemma not_pfxOf_cons_of_head_ne {a b : Char} {l₁ l₂ : Str} (hab : a ≠ b) :
    ¬ (a :: l₁) <+: (b :: l₂) := fun h => hab (List.cons_prefix_cons.mp h).1

lemma magicSentinel_cons :
    magicSentinel = '#' :: ['%', '#', 'j', 'u', 'p', 'y', 'l', 'i', 'n', 't', '#'] := rfl

lemma bangSentinel_cons :
    bangSentinel = '#' :: ['!', '#', 'j', 'u', 'p', 'y', 'l', 'i', 'n', 't', '#'] := rfl

lemma replaceLead_line (l : Str)
    (hP : ¬ magicSentinel <:+: l) (hB : ¬ bangSentinel <:+: l) :
    replaceLead bangSentinel ['!'] (replaceLead magicSentinel ['%']
      (replaceLead ['!'] bangSentinel (replaceLead ['%'] magicSentinel l))) = l := by
  match l with
  | [] => decide
  | c :: t =>
    by_cases hc : c = '%'
    · subst hc
      have e1 : replaceLead ['%'] magicSentinel ('%' :: t) = magicSentinel ++ t := by
        unfold replaceLead
        rw [if_pos (List.cons_prefix_cons.mpr ⟨rfl, List.nil_prefix⟩)]
        simp
      rw [e1]
      have e2 : replaceLead ['!'] bangSentinel (magicSentinel ++ t) = magicSentinel ++ t := by
        unfold replaceLead
        rw [if_neg]
        rw [magicSentinel_cons, List.cons_append]
        exact not_pfxOf_cons_of_head_ne (by decide)
      rw [e2]
      have e3 : replaceLead magicSentinel ['%'] (magicSentinel ++ t) = '%' :: t := by
        unfold replaceLead
        rw [if_pos (List.prefix_append magicSentinel t), List.drop_left]
        rfl
      rw [e3]
      unfold replaceLead
      rw [if_neg]
      rw [bangSentinel_cons]
      exact not_pfxOf_cons_of_head_ne (by decide)
    · by_cases hc2 : c = '!'
      · subst hc2
        have e1 : replaceLead ['%'] magicSentinel ('!' :: t) = '!' :: t := by
          unfold replaceLead
          rw [if_neg]
          exact not_pfxOf_cons_of_head_ne (by decide)
        rw [e1]
        have e2 : replaceLead ['!'] bangSentinel ('!' :: t) = bangSentinel ++ t := by
          unfold replaceLead
          rw [if_pos (List.cons_prefix_cons.mpr ⟨rfl, List.nil_prefix⟩)]
          simp
        rw [e2]
        have e3 : replaceLead magicSentinel ['%'] (bangSentinel ++ t) = bangSentinel ++ t := by
          unfold replaceLead
          rw [if_neg]
          intro h
          have hlen : magicSentinel.length = bangSentinel.length := by decide
          have htake := List.prefix_iff_eq_take.mp h
          rw [hlen, List.take_left] at htake
          exact absurd htake (by decide)
        rw [e3]
        unfold replaceLead
        rw [if_pos (List.prefix_append bangSentinel t), List.drop_left]
        rfl
      · have e1 : replaceLead ['%'] magicSentinel (c :: t) = c :: t := by
          unfold replaceLead
          rw [if_neg]
          exact not_pfxOf_cons_of_head_ne (fun he => hc he.symm)
        rw [e1]
        have e2 : replaceLead ['!'] bangSentinel (c :: t) = c :: t := by
          unfold replaceLead
          rw [if_neg]
          exact not_pfxOf_cons_of_head_ne (fun he => hc2 he.symm)
        rw [e2]
        have e3 : replaceLead magicSentinel ['%'] (c :: t) = c :: t := by
          unfold replaceLead
          rw [if_neg]
          exact fun h => hP (infix_of_leading h)
        rw [e3]
        unfold replaceLead
        rw [if_neg]
        exact fun h => hB (infix_of_leading h)

lemma shield_eq_intercalate (T : Str) :
    shield T = [Char.ofNat 10].intercalate ((T.splitOn (Char.ofNat 10)).map
      (fun l => replaceLead ['!'] bangSentinel (replaceLead ['%'] magicSentinel l))) :=
  reSubStart_comp ['%'] magicSentinel ['!'] bangSentinel T (by decide)

lemma splitOn_shield (T : Str) :
    (shield T).splitOn (Char.ofNat 10) = (T.splitOn (Char.ofNat 10)).map
      (fun l => replaceLead ['!'] bangSentinel (replaceLead ['%'] magicSentinel l)) := by
  rw [shield_eq_intercalate]
  apply List.splitOn_intercalate
  · intro l hl
    rcases List.mem_map.mp hl with ⟨l0, hl0, rfl⟩
    exact replaceLead_nl_free (by decide)
      (replaceLead_nl_free (by decide) (sep_not_mem_splitOn _ T l0 hl0))
  · have h := List.splitOnP_ne_nil (fun a => a == Char.ofNat 10) T
    intro hnil
    rw [List.map_eq_nil_iff] at hnil
    exact h hnil

lemma stepCell_cases {fmt : Str → Option Str} {a : FmtArgs} {i : Nat} {c : Cell}
    {st : LoopSt} {c2 : Cell} {st2 : LoopSt}
    (h : stepCell fmt a i c st = .ok (c2, st2)) :
    c2 = c ∨ (c.cell_type = "code" ∧
      ∃ fmted, fmt (shield (padNL c.source)) = some fmted ∧
        shield (padNL c.source) ≠ fmted ∧
        c2 = new_code_cell (stripTrailNL (unshield fmted))) := by
  by_cases h1 : c.cell_type = "code"
  · by_cases h2 : a.assert_consistent_execution = true ∧ c.execution_count ≠ some st.cur
    · by_cases h3 : a.check = true
      · have e : stepCell fmt a i c st = .ok (c, { st with errored := st.errored + 1 }) := by
          simp [stepCell, h1, h2, h3]
        rw [e] at h
        simp only [Except.ok.injEq, Prod.mk.injEq] at h
        exact Or.inl h.1.symm
      · have e : stepCell fmt a i c st = .error (.inconsistentExecution i) := by
          simp [stepCell, h1, h2, h3]
        rw [e] at h
        exact absurd h (by simp)
    · by_cases h4 : startsWithSkipTag c.source = true
      · have e : stepCell fmt a i c st = .ok (c, { st with cur := st.cur + 1 }) := by
          simp [stepCell, h1, h2, h4]
        rw [e] at h
        simp only [Except.ok.injEq, Prod.mk.injEq] at h
        exact Or.inl h.1.symm
      · cases h5 : fmt (shield (padNL c.source)) with
        | none =>
          by_cases h3 : a.check = true
          · have e : stepCell fmt a i c st =
                .ok (c, { st with cur := st.cur + 1, errored := st.errored + 1 }) := by
              simp [stepCell, h1, h2, h4, h5, h3]
            rw [e] at h
            simp only [Except.ok.injEq, Prod.mk.injEq] at h
            exact Or.inl h.1.symm
          · have e : stepCell fmt a i c st = .error (.invalidInput i) := by
              simp [stepCell, h1, h2, h4, h5, h3]
            rw [e] at h
            exact absurd h (by simp)
        | some fmted =>
          by_cases h6 : shield (padNL c.source) ≠ fmted
          · have e : stepCell fmt a i c st =
                .ok (new_code_cell (stripTrailNL (unshield fmted)),
                     { st with cur := st.cur + 1, changed := st.changed + 1 }) := by
              simp [stepCell, h1, h2, h4, h5, h6]
            rw [e] at h
            simp only [Except.ok.injEq, Prod.mk.injEq] at h
            exact Or.inr ⟨h1, fmted, rfl, h6, h.1.symm⟩
          · rw [not_ne_iff] at h6
            subst h6
            have e : stepCell fmt a i c st =
                .ok (c, { st with cur := st.cur + 1, unchanged := st.unchanged + 1 }) := by
              simp [stepCell, h1, h2, h4, h5]
            rw [e] at h
            simp only [Except.ok.injEq, Prod.mk.injEq] at h
            exact Or.inl h.1.symm
  · have e : stepCell fmt a i c st = .ok (c, st) := by
      simp [stepCell, h1]
    rw [e] at h
    simp only [Except.ok.injEq, Prod.mk.injEq] at h
    exact Or.inl h.1.symm

lemma runCells_spec (fmt : Str → Option Str) (a : FmtArgs) :
    ∀ (cs : List Cell) (i : Nat) (st : LoopSt) (cs2 : List Cell) (st2 : LoopSt),
      runCells fmt a i cs st = .ok (cs2, st2) →
      cs2.length = cs.length ∧
      ∀ j, j < cs.length →
        cs2.getD j dummyCell = cs.getD j dummyCell ∨
        ((cs.getD j dummyCell).cell_type = "code" ∧
          ∃ fmted, fmt (shield (padNL (cs.getD j dummyCell).source)) = some fmted ∧
            shield (padNL (cs.getD j dummyCell).source) ≠ fmted ∧
            cs2.getD j dummyCell = new_code_cell (stripTrailNL (unshield fmted))) := by
  intro cs
  induction cs with
  | nil =>
    intro i st cs2 st2 h
    simp only [runCells, Except.ok.injEq, Prod.mk.injEq] at h
    obtain ⟨h1, _⟩ := h
    subst h1
    exact ⟨rfl, by intro j hj; simp at hj⟩
  | cons c cs ih =>
    intro i st cs2 st2 h
    rw [runCells] at h
    split at h
    · exact absurd h (by simp)
    · rename_i cm stm hstep
      split at h
      · exact absurd h (by simp)
      · rename_i cs3 st3 hrec
        simp only [Except.ok.injEq, Prod.mk.injEq] at h
        obtain ⟨hcs, _⟩ := h
        subst hcs
        obtain ⟨hl, hrel⟩ := ih (i + 1) stm cs3 st3 hrec
        refine ⟨by simp [hl], ?_⟩
        intro j hj
        cases j with
        | zero =>
          simp only [List.getD_cons_zero]
          exact stepCell_cases hstep
        | succ j =>
          simp only [List.getD_cons_succ]
          exact hrel j (by simpa using hj)

lemma aggregate_spec (check : Bool) :
    ∀ (rs : List (Except FileError (Nat × Nat × Nat))) (fe fc fu : Nat)
      (res : Nat × Nat × Nat),
      aggregate check rs (fe, fc, fu) = .ok res →
      res = (fe + rs.countP isErroredFile, fc + rs.countP isChangedFile,
             fu + rs.countP isUnchangedFile) := by
  intro rs
  induction rs with
  | nil =>
    intro fe fc fu res h
    simp only [aggregate, Except.ok.injEq] at h
    subst h
    simp
  | cons r rs ih =>
    intro fe fc fu res h
    match r with
    | .error e =>
      rw [aggregate] at h
      by_cases hc : check = true
      case neg => rw [if_neg hc] at h; simp at h
      case pos =>
        rw [if_pos hc] at h
        have := ih (fe + 1) fc fu res h
        rw [this]
        simp only [List.countP_cons, isErroredFile, isChangedFile, isUnchangedFile]
        refine Prod.ext ?_ (Prod.ext ?_ ?_) <;> (simp; try omega)
    | .ok (ce, cc, cu) =>
      rw [aggregate] at h
      by_cases h1 : ce > 0
      · rw [if_pos h1] at h
        have := ih (fe + 1) fc fu res h
        rw [this]
        simp only [List.countP_cons, isErroredFile, isChangedFile, isUnchangedFile]
        have e1 : decide (0 < ce) = true := by simpa using h1
        have e2 : decide (ce = 0) = false := by simp; omega
        refine Prod.ext ?_ (Prod.ext ?_ ?_) <;> (simp [e1, e2]; try omega)
      · rw [if_neg h1] at h
        have hce : ce = 0 := by omega
        by_cases h2 : cc > 0
        · rw [if_pos h2] at h
          have := ih fe (fc + 1) fu res h
          rw [this]
          simp only [List.countP_cons, isErroredFile, isChangedFile, isUnchangedFile]
          have e1 : decide (0 < ce) = false := by simp; omega
          have e3 : decide (0 < cc) = true := by simpa using h2
          have e4 : decide (cc = 0) = false := by simp; omega
          refine Prod.ext ?_ (Prod.ext ?_ ?_) <;> (simp [hce, e1, e3, e4]; try omega)
        · rw [if_neg h2] at h
          have hcc : cc = 0 := by omega
          have := ih fe fc (fu + 1) res h
          rw [this]
          simp only [List.countP_cons, isErroredFile, isChangedFile, isUnchangedFile]
          refine Prod.ext ?_ (Prod.ext ?_ ?_) <;> (simp [hce, hcc]; try omega)

lemma stripTrailNL_no_nl {s : Str}
    (h : ¬ (s.getLast? = some (Char.ofNat 10) ∧
            s.dropLast.getLast? = some (Char.ofNat 10))) :
    (stripTrailNL s).getLast? ≠ some (Char.ofNat 10) := by
  unfold stripTrailNL
  split
  · rename_i hlast
    intro hd
    exact h ⟨hlast, hd⟩
  · rename_i hlast
    exact hlast

/-- Claim C4: for all text T that does not contain the sentinel tokens,
applying the directive shield "in" transform followed by the "out"
transform returns exactly T: `unshield (shield T) = T`. -/
theorem claim_C4_shield_inverse (T : Str)
    (hP : ¬ magicSentinel <:+: T) (hB : ¬ bangSentinel <:+: T) :
    unshield (shield T) = T := by
  have e3 : unshield (shield T) =
      [Char.ofNat 10].intercalate (((shield T).splitOn (Char.ofNat 10)).map
        (fun l => replaceLead bangSentinel ['!'] (replaceLead magicSentinel ['%'] l))) :=
    reSubStart_comp magicSentinel ['%'] bangSentinel ['!'] (shield T) (by decide)
  rw [e3, splitOn_shield, List.map_map]
  have e5 : ∀ l ∈ T.splitOn (Char.ofNat 10),
      ((fun l => replaceLead bangSentinel ['!'] (replaceLead magicSentinel ['%'] l)) ∘
       (fun l => replaceLead ['!'] bangSentinel (replaceLead ['%'] magicSentinel l))) l = l := by
    intro l hl
    have hinf : l <:+: T := infix_of_mem_splitOn hl
    exact replaceLead_line l (fun h => hP (h.trans hinf)) (fun h => hB (h.trans hinf))
  have e6 := List.map_congr_left e5
  rw [e6]
  have e7 : (T.splitOn (Char.ofNat 10)).map (fun l => l) = T.splitOn (Char.ofNat 10) :=
    List.map_id _
  rw [e7]
  exact List.intercalate_splitOn T (Char.ofNat 10)

/-- Witness for claim C4 at a concrete cell text containing a line magic, a
shell escape and plain code. -/
theorem claim_C4_shield_inverse_witness :
    unshield (shield ("%time 1 + 1\n!ls -l\nx = 1".toList)) =
      "%time 1 + 1\n!ls -l\nx = 1".toList :=
  claim_C4_shield_inverse _ (by decide) (by decide)

/-- Claim C7: the claim says a secondary formatter is selected only when the
first non-blank line begins with cell-magic (double-marker) syntax naming a
registered secondary language.  The code instead drops the first two
characters of the first token unconditionally (formatters.py line 82), so
the comment line `##R` — which carries no cell magic at all — is routed to
the R formatter, contradicting the function's own docstring and inline
comment.  This theorem evaluates the code at the failing input. -/
theorem claim_C7_router_bug (excl : Bool) :
    get_formatter ("##R\nx = 1".toList) excl = .ok (some FmtFun.rF) := by
  cases excl
  · decide
  · decide

/-- Claim C10: on a non-empty source whose lines are all empty (such as a
lone newline) the router raises `StopIteration`, and on a source whose
first non-empty line is all whitespace it raises `IndexError`; `format_code`
propagates both.  Neither source starts with a skip tag. -/
theorem claim_C10_router_partiality (excl : Bool) (fmtPy fmtR : Str → Str) :
    get_formatter ("\n".toList) excl = .error .stopIteration ∧
    get_formatter (" ".toList) excl = .error .indexError ∧
    format_code fmtPy fmtR ("\n".toList) excl = .error .stopIteration ∧
    format_code fmtPy fmtR (" ".toList) excl = .error .indexError ∧
    ("\n".toList : Str).length ≠ 0 ∧ (" ".toList : Str).length ≠ 0 ∧
    startsWithSkipTag ("\n".toList) = false ∧ startsWithSkipTag (" ".toList) = false := by
  cases excl
  · exact ⟨by decide, by decide, rfl, rfl, by decide, by decide, by decide, by decide⟩
  · exact ⟨by decide, by decide, rfl, rfl, by decide, by decide, by decide, by decide⟩

/-- Claim C8: when the cell formatter formats a cell, the result equals the
unshielded formatter output with the padding newline stripped back off, and
— provided the formatter pipeline output does not end in two newlines, as a
single-trailing-newline formatter like black guarantees — the result does
not end with a line terminator, so it never gains one the original source
did not have. -/
theorem claim_C8_trailing_newline (fmtPy fmtR : Str → Str) (s : Str) (excl : Bool)
    (f : FmtFun) (hget : get_formatter s excl = .ok (some f))
    (hout : ¬ ((pipelineOut fmtPy fmtR f s).getLast? = some (Char.ofNat 10) ∧
               (pipelineOut fmtPy fmtR f s).dropLast.getLast? = some (Char.ofNat 10))) :
    format_code fmtPy fmtR s excl =
      .ok (some (stripTrailNL (pipelineOut fmtPy fmtR f s))) ∧
    (stripTrailNL (pipelineOut fmtPy fmtR f s)).getLast? ≠ some (Char.ofNat 10) := by
  constructor
  · simp [format_code, hget]
  · exact stripTrailNL_no_nl hout

/-- Witness for claim C8 with the identity formatter on a plain code cell. -/
theorem claim_C8_trailing_newline_witness :
    format_code (fun t => t) (fun t => t) ("x = 1".toList) false =
      .ok (some (stripTrailNL (pipelineOut (fun t => t) (fun t => t)
        FmtFun.pythonF ("x = 1".toList)))) ∧
    (stripTrailNL (pipelineOut (fun t => t) (fun t => t)
      FmtFun.pythonF ("x = 1".toList))).getLast? ≠ some (Char.ofNat 10) :=
  claim_C8_trailing_newline (fun t => t) (fun t => t) ("x = 1".toList) false
    FmtFun.pythonF (by decide) (by decide)

/-- Counterexample for claim C2: in check mode with zero errored cells and
no diff flag set, the file is still not written, so "rewritten iff zero
cells errored and neither diff mode active" is false as stated. -/
theorem claim_C2_counterexample :
    format_file idFmt checkArgs [pyCell] = .ok ⟨[pyCell], false, 0, 0, 1⟩ ∧
    checkArgs.diff = false ∧ checkArgs.compact_diff = false := by
  refine ⟨by decide, rfl, rfl⟩

/-- Claim C2 (amended): the notebook is rewritten in place if and only if
zero cells errored, check mode is off, and neither diff output mode is
active; in particular a diff flag alone always suppresses the write. -/
theorem claim_C2_write_condition (fmt : Str → Option Str) (a : FmtArgs)
    (cells : List Cell) (r : FileResult) (h : format_file fmt a cells = .ok r) :
    r.written = true ↔
      (r.cells_errored = 0 ∧ a.check = false ∧ a.diff = false ∧ a.compact_diff = false) := by
  unfold format_file at h
  split at h
  · exact absurd h (by simp)
  · rename_i cells2 st heq
    simp only [Except.ok.injEq] at h
    subst h
    simp only [Bool.and_eq_true, beq_iff_eq, Bool.not_eq_eq_eq_not, Bool.not_true]
    constructor
    · rintro ⟨⟨⟨he, hc⟩, hcd⟩, hd⟩
      exact ⟨he, by simpa using hc, by simpa using hd, by simpa using hcd⟩
    · rintro ⟨he, hc, hd, hcd⟩
      exact ⟨⟨⟨he, by simp [hc]⟩, by simp [hcd]⟩, by simp [hd]⟩

/-- Witness for claim C2 on an apply-mode run of one already formatted
cell, where the file is written. -/
theorem claim_C2_write_condition_witness :
    c2applyRes.written = true ↔
      (c2applyRes.cells_errored = 0 ∧ applyArgs.check = false ∧
       applyArgs.diff = false ∧ applyArgs.compact_diff = false) :=
  claim_C2_write_condition idFmt applyArgs [pyCell] c2applyRes (by decide)

/-- Counterexample for claim C3: a code cell starting with the skip tag is
skipped without touching any counter, so it is not merged into the
Unchanged counter (the triple is 0,0,0 instead of unchanged = 1); and a
cell whose skip tag follows a blank first line is not skipped by the
notebook processor at all — it is formatted, counted Changed, and its
stored source is rewritten. -/
theorem claim_C3_counterexample :
    format_file idFmt checkArgs [mdTagCell] = .ok ⟨[mdTagCell], false, 0, 0, 0⟩ ∧
    format_file (fun _ => some ("x\n".toList)) checkArgs [blankMdCell] =
      .ok ⟨[new_code_cell ("x".toList)], false, 0, 1, 0⟩ := by
  refine ⟨by decide, by decide⟩

/-- Claim C3 (amended): in the notebook processor a code cell whose raw
source literally starts with a listed skip tag (and passes the
execution-consistency gate) is skipped: the cell is left untouched, no
counter is incremented, only the expected execution counter advances, and
the result does not depend on the formatter, so no formatter error can
arise for it.  In the language router, a source whose first non-blank line
starts with a skip tag yields no formatter, so the secondary-formatter
error path is never triggered there either. -/
theorem claim_C3_skip_behavior :
    (∀ (fmt : Str → Option Str) (a : FmtArgs) (i : Nat) (c : Cell) (st : LoopSt),
      c.cell_type = "code" → startsWithSkipTag c.source = true →
      ¬ (a.assert_consistent_execution = true ∧ c.execution_count ≠ some st.cur) →
      stepCell fmt a i c st = .ok (c, { st with cur := st.cur + 1 })) ∧
    (∀ (s : Str) (excl : Bool) (first : Str) (rest : List Str),
      s.length ≠ 0 →
      (splitlines s).filter (fun l => !l.isEmpty) = first :: rest →
      (skip_codes excl).any
        (fun magic => (('%' :: '%' :: magic : Str)).isPrefixOf first) = true →
      get_formatter s excl = .ok none) := by
  constructor
  · intro fmt a i c st h1 h4 h2
    simp [stepCell, h1, h2, h4]
  · intro s excl first rest hlen hfilter hskip
    have hlen2 : ¬ s.length = 0 := hlen
    simp [get_formatter, hlen2, hfilter, hskip]

/-- Witness for claim C3: the skip-tagged cell is skipped with counters
untouched, and the router returns no formatter for it. -/
theorem claim_C3_skip_behavior_witness :
    stepCell idFmt applyArgs 0 mdTagCell initSt =
      .ok (mdTagCell, { initSt with cur := initSt.cur + 1 }) ∧
    get_formatter ("%%markdown\nfoo".toList) false = .ok none := by
  constructor
  · exact claim_C3_skip_behavior.1 idFmt applyArgs 0 mdTagCell initSt rfl (by decide)
      (by decide)
  · exact claim_C3_skip_behavior.2 ("%%markdown\nfoo".toList) false
      ("%%markdown".toList) ["foo".toList] (by decide) (by decide) (by decide)

/-- Claim C5: the output notebook has exactly as many cells as the input
and no cell is reordered, inserted or deleted: the cell at every position
of the output is either the input cell at that same position unchanged, or
— only when that input cell is a code cell — a code cell carrying its
rewritten source; in particular every non-code cell is identical before
and after processing. -/
theorem claim_C5_cell_structure (fmt : Str → Option Str) (a : FmtArgs)
    (cells : List Cell) (r : FileResult) (h : format_file fmt a cells = .ok r) :
    r.cells.length = cells.length ∧
    (∀ j, j < cells.length →
      r.cells.getD j dummyCell = cells.getD j dummyCell ∨
      ((cells.getD j dummyCell).cell_type = "code" ∧
        ∃ t, r.cells.getD j dummyCell = new_code_cell t)) ∧
    (∀ j, j < cells.length → (cells.getD j dummyCell).cell_type ≠ "code" →
      r.cells.getD j dummyCell = cells.getD j dummyCell) := by
  unfold format_file at h
  split at h
  · exact absurd h (by simp)
  · rename_i cells2 st heq
    simp only [Except.ok.injEq] at h
    subst h
    obtain ⟨hl, hrel⟩ := runCells_spec fmt a cells 0 ⟨1, 0, 0, 0⟩ cells2 st heq
    refine ⟨hl, ?_, ?_⟩
    · intro j hj
      rcases hrel j hj with h | ⟨hcode, fmted, _, _, hout⟩
      · exact Or.inl h
      · exact Or.inr ⟨hcode, _, hout⟩
    · intro j hj hnc
      rcases hrel j hj with h | ⟨hcode, _⟩
      · exact h
      · exact absurd hcode hnc

/-- Witness for claim C5 on a markdown cell followed by a code cell: the
output position 0 holds the untouched markdown cell. -/
theorem claim_C5_cell_structure_witness :
    c5res.cells.getD 0 dummyCell = ([otherCell, pyCell] : List Cell).getD 0 dummyCell := by
  have h := claim_C5_cell_structure idFmt applyArgs [otherCell, pyCell] c5res (by decide)
  exact h.2.2 0 (by decide) (by decide)

/-- Counterexample for claim C6: with the consistency check enabled in
check mode, a cell whose recorded count mismatches is counted errored but
the expected counter does not advance for it, so a second cell with
recorded count 2 also mismatches (the counter is still 1) and both cells
error, where the claim predicts the second cell would be consistent. -/
theorem claim_C6_counterexample :
    format_file idFmt checkAssertArgs [execCell, execCell] =
      .ok ⟨[execCell, execCell], false, 2, 0, 0⟩ ∧ (2 : Nat) ≠ 1 := by
  refine ⟨by decide, by decide⟩

/-- Claim C6 (amended): with the consistency check enabled, a code cell
whose recorded execution count differs from the running expected counter is
counted errored in check mode and aborts the file in apply mode; the
expected counter advances by exactly one for every code cell that passes
the check (or has it disabled), does not advance for a consistency-errored
cell, and never advances for non-code cells. -/
theorem claim_C6_exec_counter (fmt : Str → Option Str) (a : FmtArgs) (i : Nat)
    (c : Cell) (st : LoopSt) :
    (∀ c2 st2, stepCell fmt a i c st = .ok (c2, st2) →
      st2.cur =
        if c.cell_type = "code" ∧
            (a.assert_consistent_execution = false ∨ c.execution_count = some st.cur)
        then st.cur + 1 else st.cur) ∧
    (c.cell_type = "code" → a.assert_consistent_execution = true →
      c.execution_count ≠ some st.cur →
      stepCell fmt a i c st =
        if a.check = true then .ok (c, { st with errored := st.errored + 1 })
        else .error (.inconsistentExecution i)) := by
  constructor
  · intro c2 st2 h
    by_cases h1 : c.cell_type = "code"
    · by_cases h2 : a.assert_consistent_execution = true ∧ c.execution_count ≠ some st.cur
      · rw [if_neg]
        · by_cases h3 : a.check = true
          · have e : stepCell fmt a i c st = .ok (c, { st with errored := st.errored + 1 }) := by
              simp [stepCell, h1, h2, h3]
            rw [e] at h
            simp only [Except.ok.injEq, Prod.mk.injEq] at h
            rw [← h.2]
          · have e : stepCell fmt a i c st = .error (.inconsistentExecution i) := by
              simp [stepCell, h1, h2, h3]
            rw [e] at h
            exact absurd h (by simp)
        · rintro ⟨_, hor⟩
          rcases hor with hfalse | hsome
          · rw [h2.1] at hfalse
            exact absurd hfalse (by simp)
          · exact h2.2 hsome
      · have hcond : c.cell_type = "code" ∧
            (a.assert_consistent_execution = false ∨ c.execution_count = some st.cur) := by
          refine ⟨h1, ?_⟩
          by_cases ha : a.assert_consistent_execution = true
          · right
            by_contra hne
            exact h2 ⟨ha, hne⟩
          · left
            simpa using ha
        rw [if_pos hcond]
        by_cases h4 : startsWithSkipTag c.source = true
        · have e : stepCell fmt a i c st = .ok (c, { st with cur := st.cur + 1 }) := by
            simp [stepCell, h1, h2, h4]
          rw [e] at h
          simp only [Except.ok.injEq, Prod.mk.injEq] at h
          rw [← h.2]
        · cases h5 : fmt (shield (padNL c.source)) with
          | none =>
            by_cases h3 : a.check = true
            · have e : stepCell fmt a i c st =
                  .ok (c, { st with cur := st.cur + 1, errored := st.errored + 1 }) := by
                simp [stepCell, h1, h2, h4, h5, h3]
              rw [e] at h
              simp only [Except.ok.injEq, Prod.mk.injEq] at h
              rw [← h.2]
            · have e : stepCell fmt a i c st = .error (.invalidInput i) := by
                simp [stepCell, h1, h2, h4, h5, h3]
              rw [e] at h
              exact absurd h (by simp)
          | some fmted =>
            by_cases h6 : shield (padNL c.source) ≠ fmted
            · have e : stepCell fmt a i c st =
                  .ok (new_code_cell (stripTrailNL (unshield fmted)),
                       { st with cur := st.cur + 1, changed := st.changed + 1 }) := by
                simp [stepCell, h1, h2, h4, h5, h6]
              rw [e] at h
              simp only [Except.ok.injEq, Prod.mk.injEq] at h
              rw [← h.2]
            · rw [not_ne_iff] at h6
              subst h6
              have e : stepCell fmt a i c st =
                  .ok (c, { st with cur := st.cur + 1, unchanged := st.unchanged + 1 }) := by
                simp [stepCell, h1, h2, h4, h5]
              rw [e] at h
              simp only [Except.ok.injEq, Prod.mk.injEq] at h
              rw [← h.2]
    · have e : stepCell fmt a i c st = .ok (c, st) := by
        simp [stepCell, h1]
      rw [e] at h
      simp only [Except.ok.injEq, Prod.mk.injEq] at h
      rw [← h.2, if_neg]
      rintro ⟨hcode, _⟩
      exact h1 hcode
  · intro h1 ha hne
    have h2 : a.assert_consistent_execution = true ∧ c.execution_count ≠ some st.cur :=
      ⟨ha, hne⟩
    by_cases h3 : a.check = true
    · rw [if_pos h3]
      simp [stepCell, h1, h2, h3]
    · rw [if_neg h3]
      simp [stepCell, h1, h2, h3]

/-- Witness for claim C6: a mismatching cell in check mode is counted
errored, the counter left alone. -/
theorem claim_C6_exec_counter_witness :
    stepCell idFmt checkAssertArgs 0 execCell initSt =
      .ok (execCell, { initSt with errored := initSt.errored + 1 }) := by
  have h := (claim_C6_exec_counter idFmt checkAssertArgs 0 execCell initSt).2
    rfl rfl (by decide)
  simpa [checkAssertArgs] using h

/-- Counterexample for claim C9: an apply-mode run that reformats the rich
cell replaces it by a fresh default cell, losing its execution count,
outputs and metadata, so full schema fidelity does not hold for code cells
whose source was reformatted. -/
theorem claim_C9_counterexample :
    format_file (fun _ => some ("1 + 1\n".toList)) applyArgs [richCell] =
      .ok ⟨[new_code_cell ("1 + 1".toList)], true, 0, 1, 0⟩ ∧
    (new_code_cell ("1 + 1".toList)).execution_count ≠ richCell.execution_count ∧
    (new_code_cell ("1 + 1".toList)).outputs ≠ richCell.outputs ∧
    (new_code_cell ("1 + 1".toList)).cellMetadata ≠ richCell.cellMetadata := by
  refine ⟨by decide, by decide, by decide, by decide⟩

/-- Claim C9 (amended): every cell of the written notebook is byte-identical
to the corresponding input cell — this covers all non-code cells and all
skipped, errored or unchanged code cells, since the replacement branch below
requires the formatter to have returned text different from the padded
shielded source — except exactly when the input cell is a code cell whose
formatter output differed from its (padded, shielded) source: such a changed
cell is replaced by a fresh default code cell holding only that output,
unshielded and trailing-newline-stripped, with execution count, outputs and
metadata reset to defaults (not preserved). -/
theorem claim_C9_frame (fmt : Str → Option Str) (a : FmtArgs)
    (cells : List Cell) (r : FileResult) (h : format_file fmt a cells = .ok r) :
    ∀ j, j < cells.length →
      r.cells.getD j dummyCell = cells.getD j dummyCell ∨
      ((cells.getD j dummyCell).cell_type = "code" ∧
        ∃ fmted, fmt (shield (padNL (cells.getD j dummyCell).source)) = some fmted ∧
          shield (padNL (cells.getD j dummyCell).source) ≠ fmted ∧
          r.cells.getD j dummyCell = new_code_cell (stripTrailNL (unshield fmted)) ∧
          (r.cells.getD j dummyCell).execution_count = none ∧
          (r.cells.getD j dummyCell).outputs = [] ∧
          (r.cells.getD j dummyCell).cellMetadata = "\x7b\x7d") := by
  unfold format_file at h
  split at h
  · exact absurd h (by simp)
  · rename_i cells2 st heq
    simp only [Except.ok.injEq] at h
    subst h
    obtain ⟨_, hrel⟩ := runCells_spec fmt a cells 0 ⟨1, 0, 0, 0⟩ cells2 st heq
    intro j hj
    rcases hrel j hj with h | ⟨hcode, fmted, hf, hne, ht⟩
    · exact Or.inl h
    · refine Or.inr ⟨hcode, fmted, hf, hne, ht, ?_, ?_, ?_⟩
      · rw [ht]; rfl
      · rw [ht]; rfl
      · rw [ht]; rfl

/-- Witness for claim C9 on the reformatted rich cell: its formatter output
differs from the shielded source, so the output cell is the fresh default
cell with the stripped new text. -/
theorem claim_C9_frame_witness :
    c9res.cells.getD 0 dummyCell = ([richCell] : List Cell).getD 0 dummyCell ∨
    (([richCell] : List Cell).getD 0 dummyCell).cell_type = "code" ∧
    ∃ fmted,
      oneFmt (shield (padNL (([richCell] : List Cell).getD 0 dummyCell).source)) =
        some fmted ∧
      shield (padNL (([richCell] : List Cell).getD 0 dummyCell).source) ≠ fmted ∧
      c9res.cells.getD 0 dummyCell = new_code_cell (stripTrailNL (unshield fmted)) ∧
      (c9res.cells.getD 0 dummyCell).execution_count = none ∧
      (c9res.cells.getD 0 dummyCell).outputs = [] ∧
      (c9res.cells.getD 0 dummyCell).cellMetadata = "\x7b\x7d" :=
  claim_C9_frame oneFmt applyArgs [richCell] c9res (by decide) 0 (by decide)

/-- Counterexample for claim C1: outside check mode a run whose only file
changed (and none errored) exits 0, not 1, so an apply-mode run does not
signal via its exit code that changes were made. -/
theorem claim_C1_counterexample :
    mainRun false [Except.ok (0, 1, 0)] = .ok (0, 1, 0, 0) ∧
    mainRun false [Except.ok (0, 1, 0)] ≠ .ok (0, 1, 0, 1) := by
  refine ⟨by decide, by decide⟩

/-- Claim C1 (amended): the file counters tally errored (raised or any cell
errored), changed (no errored cell, some changed cell) and unchanged files;
the exit status is 2 if at least one file errored, 1 if none errored and at
least one changed, and 0 otherwise — but only in check mode; outside check
mode every run that completes exits 0 regardless of changes. -/
theorem claim_C1_exit_code (check : Bool)
    (rs : List (Except FileError (Nat × Nat × Nat))) (fe fc fu ec : Nat)
    (h : mainRun check rs = .ok (fe, fc, fu, ec)) :
    fe = rs.countP isErroredFile ∧ fc = rs.countP isChangedFile ∧
    fu = rs.countP isUnchangedFile ∧
    ec = (if check = true then (if 0 < fe then 2 else if 0 < fc then 1 else 0) else 0) := by
  unfold mainRun at h
  split at h
  · exact absurd h (by simp)
  · rename_i fe2 fc2 fu2 heq
    have hagg := aggregate_spec check rs 0 0 0 (fe2, fc2, fu2) heq
    simp only [Prod.mk.injEq, zero_add] at hagg
    obtain ⟨he, hc, hu⟩ := hagg
    simp only [Except.ok.injEq, Prod.mk.injEq] at h
    obtain ⟨h1, h2, h3, h4⟩ := h
    subst h1 h2 h3
    refine ⟨he.symm ▸ rfl, hc.symm ▸ rfl, hu.symm ▸ rfl, ?_⟩
    rw [← h4]
    unfold exit_code
    rcases check with _ | _
    · simp
    · simp [Nat.lt_iff_add_one_le]

/-- Witness for claim C1 on a check-mode run with one errored, one changed
and one exception-raising file. -/
theorem claim_C1_exit_code_witness :
    (2 : Nat) = c1rs.countP isErroredFile ∧
    (1 : Nat) = c1rs.countP isChangedFile ∧
    (0 : Nat) = c1rs.countP isUnchangedFile ∧
    (2 : Nat) = (if true = true then
      (if 0 < (2 : Nat) then 2 else if 0 < (1 : Nat) then 1 else 0) else 0) :=
  claim_C1_exit_code true c1rs 2 1 0 2 (by decide)

end Jupyfmt
